import Mathlib

/-!
Verification of the support-ticket agent (`agentic_ai.py`).

The program keeps a list of ticket records (loaded from `tickets.json`),
answers free-text queries by ordered pattern matching, and rewrites the
whole file on every successful reassignment.

Shallow embedding conventions:
  * a ticket dict becomes the structure `Ticket`;
  * the global list `tickets` together with the contents of the backing
    file `tickets.json` become the explicit state `AgentState`
    (`tickets` = the in-memory list, `store` = the ticket list encoded in
    the file; JSON serialisation (`json.dump` / `json.load`) is faithful
    on these records, so load and save are modelled as the identity on the
    ticket list);
  * Python string methods are modelled character-wise over `List Char`
    (`pyLower` for `str.lower`, `pyStrip` for `str.strip`,
    `strCapitalize` for `str.capitalize`, `containsSub` for the
    substring operator `in`);
  * `re.search` is modelled by a scan over start positions
    (`searchPos`), with a hand-written matcher per pattern that follows
    the regular expression literally, including the greedy `\d+` / `\w+`
    runs and the backtracking of the optional and alternation groups.
-/

/-- One ticket record of `tickets.json`: keys `ticket_id`, `title`,
`description`, `status`, `assigned_to`. -/
structure Ticket where
  ticket_id : Int
  title : String
  description : String
  status : String
  assigned_to : String
deriving Repr, DecidableEq

/-- The mutable state of the process: the in-memory list `tickets` and the
contents of the backing file `tickets.json` (as the list of tickets it
encodes). -/
structure AgentState where
  tickets : List Ticket
  store : List Ticket
deriving Repr, DecidableEq

/-- Models re-reading `tickets.json`: JSON decoding of the encoded list is
the identity in this embedding. -/
def load_store (s : AgentState) : List Ticket :=
  s.store

/-- Models Python `str.lower`: lower-case every character. -/
def pyLower (s : String) : String :=
  String.mk (s.toList.map Char.toLower)

/-- Models Python `str.strip`: drop whitespace from both ends. -/
def pyStrip (s : String) : String :=
  String.mk (((s.toList.dropWhile Char.isWhitespace).reverse.dropWhile
    Char.isWhitespace).reverse)

/-- The normalisation done at the top of `process_query`:
`query.lower().strip()`. -/
def normalizeQuery (q : String) : String :=
  pyStrip (pyLower q)

/-- Models Python `str.capitalize`: first character upper-cased, the rest
lower-cased. -/
def strCapitalize (s : String) : String :=
  match s.toList with
  | [] => ""
  | c :: cs => String.mk (Char.toUpper c :: cs.map Char.toLower)

/-- Models the Python substring test `pat in l` (`containsSub l pat` is
true when `pat` occurs contiguously inside `l`). -/
def containsSub (l pat : List Char) : Bool :=
  match l with
  | [] => pat.isEmpty
  | c :: t => pat.isPrefixOf (c :: t) || containsSub t pat

/-- Numeric value of a digit run, as Python `int` on a decimal string. -/
def digitsToNat (l : List Char) : Nat :=
  l.foldl (fun n c => 10 * n + (c.toNat - 48)) 0

/-- A character matched by the regex class `\w`. -/
def isWordChar (c : Char) : Bool :=
  c.isAlphanum || c == '_'

/-- Match a literal piece of a pattern: if `p` is a prefix of `l`, return
the rest of `l`, otherwise fail. -/
def dropPrefixQ (p l : List Char) : Option (List Char) :=
  if p.isPrefixOf l then some (l.drop p.length) else none

/-- Models `re.search`: try the matcher at every start position from the
left; the first position where it succeeds wins.  (Every pattern of the
program starts with a nonempty literal, so the empty final position can
never match and is omitted.) -/
def searchPos {α : Type} (f : List Char → Option α) : List Char → Option α
  | [] => none
  | c :: cs =>
    match f (c :: cs) with
    | some r => some r
    | none => searchPos f cs

/-- One position of the pattern `open|closed|pending`: alternatives are
tried in order at this position. -/
def matchKeywordAt (l : List Char) : Option String :=
  if "open".toList.isPrefixOf l then some "open"
  else if "closed".toList.isPrefixOf l then some "closed"
  else if "pending".toList.isPrefixOf l then some "pending"
  else none

/-- Models `re.search(r'open|closed|pending', q)`, returning the matched
keyword. -/
def scanStatus (q : String) : Option String :=
  searchPos matchKeywordAt q.toList

/-- The tail ` to (\w+)` of the assignment pattern: literal ` to `
followed by a greedy nonempty run of word characters (the captured
name). -/
def assignTail2 (r : List Char) : Option String :=
  match dropPrefixQ " to ".toList r with
  | none => none
  | some r2 =>
    let w := r2.takeWhile isWordChar
    if w.isEmpty then none else some (String.mk w)

/-- The part `(\d+)(?: ticket)? to (\w+)` of the assignment pattern:
greedy digits (the following character is never a digit, so the maximal
run is the only viable choice), then the optional ` ticket` with
backtracking, then the name tail. -/
def assignDigits (r : List Char) : Option (Nat × String) :=
  let ds := r.takeWhile Char.isDigit
  if ds.isEmpty then none
  else
    let r2 := r.drop ds.length
    let res :=
      match dropPrefixQ " ticket".toList r2 with
      | some r3 =>
        match assignTail2 r3 with
        | some w => some w
        | none => assignTail2 r2
      | none => assignTail2 r2
    res.map fun w => (digitsToNat ds, w)

/-- One position of `assign (?:ticket )?(\d+)(?: ticket)? to (\w+)`:
literal `assign `, the optional `ticket ` with backtracking, then digits
and name. -/
def matchAssignAt (l : List Char) : Option (Nat × String) :=
  match dropPrefixQ "assign ".toList l with
  | none => none
  | some r1 =>
    match dropPrefixQ "ticket ".toList r1 with
    | some r =>
      match assignDigits r with
      | some res => some res
      | none => assignDigits r1
    | none => assignDigits r1

/-- The tail ` ticket (\d+)` shared by both alternatives of the ownership
pattern. -/
def whoTail (r : List Char) : Option Nat :=
  match dropPrefixQ " ticket ".toList r with
  | none => none
  | some r2 =>
    let ds := r2.takeWhile Char.isDigit
    if ds.isEmpty then none else some (digitsToNat ds)

/-- One position of `who (?:is working on|is assigned to) ticket (\d+)`:
literal `who `, then the alternation (first alternative tried first, with
backtracking to the second), then the ticket tail. -/
def matchWhoAt (l : List Char) : Option Nat :=
  match dropPrefixQ "who ".toList l with
  | none => none
  | some r1 =>
    match dropPrefixQ "is working on".toList r1 with
    | some r2 =>
      match whoTail r2 with
      | some n => some n
      | none => (dropPrefixQ "is assigned to".toList r1).bind whoTail
    | none => (dropPrefixQ "is assigned to".toList r1).bind whoTail

/-- One position of `summarize ticket (\d+)`. -/
def matchSummaryAt (l : List Char) : Option Nat :=
  match dropPrefixQ "summarize ticket ".toList l with
  | none => none
  | some r =>
    let ds := r.takeWhile Char.isDigit
    if ds.isEmpty then none else some (digitsToNat ds)

/-- The containment guard of case 1 of `process_query`:
`"tickets" in query and ("open" in query or "closed" in query or
"pending" in query)`. -/
def statusGuard (q : String) : Bool :=
  containsSub q.toList "tickets".toList &&
    (containsSub q.toList "open".toList ||
     containsSub q.toList "closed".toList ||
     containsSub q.toList "pending".toList)

/-- `get_ticket_by_id`: linear scan of the collection, first ticket whose
`ticket_id` equals the argument, else `None` (modelled as `none`). -/
def get_ticket_by_id (tickets : List Ticket) (ticket_id : Int) : Option Ticket :=
  match tickets with
  | [] => none
  | t :: rest =>
    if t.ticket_id = ticket_id then some t
    else get_ticket_by_id rest ticket_id

/-- `list_tickets_by_status`: the list comprehension
`[t for t in tickets if t["status"].lower() == status.lower()]`. -/
def list_tickets_by_status (tickets : List Ticket) (status : String) : List Ticket :=
  tickets.filter fun t => pyLower t.status == pyLower status

/-- The in-place loop of `update_ticket_assignment`: overwrite
`assigned_to` of the first ticket with the given id and stop; returns the
updated ticket (if any) and the resulting list. -/
def updateFirst (tickets : List Ticket) (ticket_id : Int) (assigned_to : String) :
    Option Ticket × List Ticket :=
  match tickets with
  | [] => (none, [])
  | t :: rest =>
    if t.ticket_id = ticket_id then
      let t2 : Ticket := { t with assigned_to := assigned_to }
      (some t2, t2 :: rest)
    else
      let p := updateFirst rest ticket_id assigned_to
      (p.1, t :: p.2)

/-- `update_ticket_assignment`: mutate the first matching ticket, and on
success dump the whole list back to `tickets.json` (the `store`); when no
ticket matches, nothing is mutated and nothing is written. -/
def update_ticket_assignment (s : AgentState) (ticket_id : Int) (assigned_to : String) :
    Option Ticket × AgentState :=
  let p := updateFirst s.tickets ticket_id assigned_to
  match p.1 with
  | some t => (some t, ⟨p.2, p.2⟩)
  | none => (none, s)

/-- The response line of the status listing:
`f"Tickets {id}: {title} (Assigned to {assigned_to})"`. -/
def ticketLine (t : Ticket) : String :=
  "Tickets " ++ toString t.ticket_id ++ ": " ++ t.title ++
    " (Assigned to " ++ t.assigned_to ++ ")"

/-- `process_query`: normalise the query, then the ordered dispatch of
the five cases, translated clause by clause from the source. -/
def process_query (s : AgentState) (query : String) : String × AgentState :=
  let q := normalizeQuery query
  if statusGuard q then
    match scanStatus q with
    | some status =>
      let results := list_tickets_by_status s.tickets status
      if results.isEmpty then
        ("No tickets found with status \x27" ++ status ++ "\x27.", s)
      else
        (String.intercalate "\n" (results.map ticketLine), s)
    | none =>
      ("Please specify a valid ticket status (open, closed, or pending).", s)
  else
    match searchPos matchAssignAt q.toList with
    | some (tid, raw) =>
      let name := strCapitalize raw
      match get_ticket_by_id s.tickets (Int.ofNat tid) with
      | none => ("Ticket " ++ toString tid ++ " not found.", s)
      | some t =>
        if pyLower t.assigned_to == pyLower name then
          ("Ticket " ++ toString tid ++ " is already assigned to " ++ name ++ ".", s)
        else
          let s2 := (update_ticket_assignment s (Int.ofNat tid) name).2
          ("Ticket " ++ toString tid ++ " is now assigned to " ++ name ++ ".", s2)
    | none =>
      match searchPos matchWhoAt q.toList with
      | some tid =>
        match get_ticket_by_id s.tickets (Int.ofNat tid) with
        | none => ("Ticket " ++ toString tid ++ " not found.", s)
        | some t =>
          ("Ticket " ++ toString tid ++ " is assigned to " ++ t.assigned_to ++ ".", s)
      | none =>
        match searchPos matchSummaryAt q.toList with
        | some tid =>
          match get_ticket_by_id s.tickets (Int.ofNat tid) with
          | none => ("Ticket " ++ toString tid ++ " not found.", s)
          | some t =>
            ("Summary of Ticket " ++ toString tid ++ ":\n" ++
             "Title: " ++ t.title ++ "\n" ++
             "Description: " ++ t.description ++ "\n" ++
             "Status: " ++ t.status ++ "\n" ++
             "Assigned to: " ++ t.assigned_to, s)
        | none =>
          ("Sorry, I couldn\x27t understand that query. Try asking about a ticket ID, status, or assignment.", s)

/-- The farewell line printed by `main` on a sentinel input. -/
def farewellMsg : String :=
  "Exiting the Support Ticket Agent. Goodbye!"

/-- The fixed fallback response of case 5. -/
def fallbackMsg : String :=
  "Sorry, I couldn\x27t understand that query. Try asking about a ticket ID, status, or assignment."

/-- One iteration of the interactive loop of `main`: either the loop
terminates (sentinel) or it prints a response and continues with the new
state. -/
inductive StepResult where
  | terminated (farewell : String)
  | continued (response : String) (next : AgentState)
deriving Repr, DecidableEq

/-- One iteration of `main`: `if query.lower() in ['exit', 'quit']` ends
the loop (note: the raw line is lower-cased but not stripped here);
otherwise the line goes to `process_query` and the loop continues. -/
def main_step (s : AgentState) (query : String) : StepResult :=
  if pyLower query == "exit" || pyLower query == "quit" then
    .terminated farewellMsg
  else
    .continued (process_query s query).1 (process_query s query).2

/-- The five intents of the query router.  `statusListing` carries the
keyword extracted by `scanStatus` (`none` in the defensive sub-branch),
`reassignment` carries the parsed id and the capitalised name. -/
inductive QCategory where
  | statusListing (kw : Option String)
  | reassignment (tid : Nat) (name : String)
  | ownership (tid : Nat)
  | summarize (tid : Nat)
  | fallback
deriving Repr, DecidableEq

/-- Classification of a normalised query into the five intents, following
the dispatch order of `process_query`: first matching rule wins. -/
def classify (q : String) : QCategory :=
  if statusGuard q then .statusListing (scanStatus q)
  else
    match searchPos matchAssignAt q.toList with
    | some (tid, raw) => .reassignment tid (strCapitalize raw)
    | none =>
      match searchPos matchWhoAt q.toList with
      | some tid => .ownership tid
      | none =>
        match searchPos matchSummaryAt q.toList with
        | some tid => .summarize tid
        | none => .fallback

/-- Response of the status-listing case once a keyword has been
extracted. -/
def statusFound (ts : List Ticket) (status : String) : String :=
  let results := list_tickets_by_status ts status
  if results.isEmpty then
    "No tickets found with status \x27" ++ status ++ "\x27."
  else
    String.intercalate "\n" (results.map ticketLine)

/-- Response of the whole status-listing case, including the defensive
sub-branch for a failed keyword extraction. -/
def statusResponse (ts : List Ticket) : Option String → String
  | some status => statusFound ts status
  | none => "Please specify a valid ticket status (open, closed, or pending)."

/-- Handler of the reassignment case (name already capitalised). -/
def assignRun (s : AgentState) (tid : Nat) (name : String) : String × AgentState :=
  match get_ticket_by_id s.tickets (Int.ofNat tid) with
  | none => ("Ticket " ++ toString tid ++ " not found.", s)
  | some t =>
    if pyLower t.assigned_to == pyLower name then
      ("Ticket " ++ toString tid ++ " is already assigned to " ++ name ++ ".", s)
    else
      let s2 := (update_ticket_assignment s (Int.ofNat tid) name).2
      ("Ticket " ++ toString tid ++ " is now assigned to " ++ name ++ ".", s2)

/-- Handler of the ownership case. -/
def whoRun (s : AgentState) (tid : Nat) : String × AgentState :=
  match get_ticket_by_id s.tickets (Int.ofNat tid) with
  | none => ("Ticket " ++ toString tid ++ " not found.", s)
  | some t =>
    ("Ticket " ++ toString tid ++ " is assigned to " ++ t.assigned_to ++ ".", s)

/-- Handler of the summary case. -/
def summaryRun (s : AgentState) (tid : Nat) : String × AgentState :=
  match get_ticket_by_id s.tickets (Int.ofNat tid) with
  | none => ("Ticket " ++ toString tid ++ " not found.", s)
  | some t =>
    ("Summary of Ticket " ++ toString tid ++ ":\n" ++
     "Title: " ++ t.title ++ "\n" ++
     "Description: " ++ t.description ++ "\n" ++
     "Status: " ++ t.status ++ "\n" ++
     "Assigned to: " ++ t.assigned_to, s)

/-- Run the handler of one intent. -/
def runCategory (s : AgentState) : QCategory → String × AgentState
  | .statusListing kw => (statusResponse s.tickets kw, s)
  | .reassignment tid name => assignRun s tid name
  | .ownership tid => whoRun s tid
  | .summarize tid => summaryRun s tid
  | .fallback => (fallbackMsg, s)

/-- The trigger condition of dispatch rule 1 on a raw query. -/
def statusTrigger (q : String) : Bool :=
  statusGuard (normalizeQuery q)

/-- The trigger condition of dispatch rule 2 on a raw query. -/
def assignTrigger (q : String) : Bool :=
  (searchPos matchAssignAt (normalizeQuery q).toList).isSome

/-- The sample ticket of the specification scenarios. -/
def sampleTicket : Ticket :=
  { ticket_id := 1, title := "Login bug", description := "Cannot log in",
    status := "open", assigned_to := "Alice" }

/-- A sample state holding just the sample ticket, file in sync. -/
def sampleState : AgentState :=
  ⟨[sampleTicket], [sampleTicket]⟩

/-! ### Lemmas about the ticket store -/

theorem gtbi_isSome_iff (ts : List Ticket) (tid : Int) :
    (get_ticket_by_id ts tid).isSome = true ↔ ∃ t ∈ ts, t.ticket_id = tid := by
  induction ts with
  | nil => simp [get_ticket_by_id]
  | cons h rest ih =>
    simp only [get_ticket_by_id]
    by_cases hh : h.ticket_id = tid
    · simp only [if_pos hh, Option.isSome_some, true_iff]
      exact ⟨h, by simp, hh⟩
    · simp only [if_neg hh, ih, List.mem_cons]
      constructor
      · rintro ⟨t, hmem, htid⟩
        exact ⟨t, Or.inr hmem, htid⟩
      · rintro ⟨t, hmem | hmem, htid⟩
        · exact absurd (hmem ▸ htid) hh
        · exact ⟨t, hmem, htid⟩

theorem gtbi_first (ts : List Ticket) (tid : Int) (t : Ticket)
    (h : get_ticket_by_id ts tid = some t) :
    t.ticket_id = tid ∧
      ∃ pre post, ts = pre ++ t :: post ∧ ∀ u ∈ pre, u.ticket_id ≠ tid := by
  induction ts with
  | nil => simp [get_ticket_by_id] at h
  | cons hd rest ih =>
    simp only [get_ticket_by_id] at h
    by_cases hh : hd.ticket_id = tid
    · rw [if_pos hh] at h
      obtain rfl : hd = t := by exact Option.some.inj h
      exact ⟨hh, [], rest, rfl, by simp⟩
    · rw [if_neg hh] at h
      obtain ⟨htid, pre, post, heq, hpre⟩ := ih h
      refine ⟨htid, hd :: pre, post, by simp [heq], ?_⟩
      intro u hu
      rcases List.mem_cons.mp hu with rfl | hu
      · exact hh
      · exact hpre u hu

theorem gtbi_none_iff (ts : List Ticket) (tid : Int) :
    get_ticket_by_id ts tid = none ↔ ∀ t ∈ ts, t.ticket_id ≠ tid := by
  induction ts with
  | nil => simp [get_ticket_by_id]
  | cons h rest ih =>
    simp only [get_ticket_by_id]
    by_cases hh : h.ticket_id = tid
    · rw [if_pos hh]
      constructor
      · intro hnone
        exact absurd hnone (by simp)
      · intro hall
        exact absurd hh (hall h (by simp))
    · simp only [if_neg hh, ih, List.mem_cons]
      constructor
      · rintro hall u (rfl | hu)
        · exact hh
        · exact hall u hu
      · intro hall u hu
        exact hall u (Or.inr hu)

theorem updateFirst_not_found (ts : List Ticket) (tid : Int) (name : String)
    (h : ∀ t ∈ ts, t.ticket_id ≠ tid) :
    updateFirst ts tid name = (none, ts) := by
  induction ts with
  | nil => rfl
  | cons hd rest ih =>
    have hhd : hd.ticket_id ≠ tid := h hd (by simp)
    have hrest : ∀ t ∈ rest, t.ticket_id ≠ tid := fun t ht => h t (by simp [ht])
    simp [updateFirst, if_neg hhd, ih hrest]

theorem updateFirst_found (pre : List Ticket) (t : Ticket) (post : List Ticket)
    (tid : Int) (name : String)
    (hpre : ∀ u ∈ pre, u.ticket_id ≠ tid) (ht : t.ticket_id = tid) :
    updateFirst (pre ++ t :: post) tid name =
      (some { t with assigned_to := name },
       pre ++ { t with assigned_to := name } :: post) := by
  induction pre with
  | nil => simp [updateFirst, if_pos ht]
  | cons hd rest ih =>
    have hhd : hd.ticket_id ≠ tid := hpre hd (by simp)
    have hrest : ∀ u ∈ rest, u.ticket_id ≠ tid := fun u hu => hpre u (by simp [hu])
    simp [updateFirst, if_neg hhd, ih hrest]

/-- Helper: when the containment guard of case 1 holds, `process_query`
answers from the status-listing case and leaves the state unchanged. -/
theorem process_query_status (s : AgentState) (q : String)
    (h : statusGuard (normalizeQuery q) = true) :
    process_query s q = (statusResponse s.tickets (scanStatus (normalizeQuery q)), s) := by
  simp only [process_query, h, if_true]
  cases hsc : scanStatus (normalizeQuery q) with
  | none => simp [statusResponse, hsc]
  | some kw =>
    simp only [hsc, statusResponse, statusFound]
    split <;> rfl

/-- C2: `get_ticket_by_id` returns a ticket iff the collection holds a
ticket with exactly that id; otherwise it returns `none`; and a returned
ticket has the requested id and is the first match in collection order. -/
theorem get_ticket_by_id_spec (ts : List Ticket) (tid : Int) :
    ((get_ticket_by_id ts tid).isSome = true ↔ ∃ t ∈ ts, t.ticket_id = tid) ∧
    (∀ t, get_ticket_by_id ts tid = some t →
       t.ticket_id = tid ∧
         ∃ pre post, ts = pre ++ t :: post ∧ ∀ u ∈ pre, u.ticket_id ≠ tid) ∧
    (get_ticket_by_id ts tid = none ↔ ∀ t ∈ ts, t.ticket_id ≠ tid) :=
  ⟨gtbi_isSome_iff ts tid, fun t h => gtbi_first ts tid t h, gtbi_none_iff ts tid⟩

/-- Witness for C2 at a concrete collection and ids. -/
theorem get_ticket_by_id_spec_w :
    (get_ticket_by_id [sampleTicket] 1).isSome = true ∧
    get_ticket_by_id [sampleTicket] 2 = none :=
  ⟨(get_ticket_by_id_spec [sampleTicket] 1).1.mpr ⟨sampleTicket, by simp, by decide⟩,
   (get_ticket_by_id_spec [sampleTicket] 2).2.2.mpr (by decide)⟩

/-- C3: `list_tickets_by_status` returns exactly the subsequence of
tickets whose status equals the argument case-insensitively, in original
order, and a status-listing query leaves the state unchanged, so an
immediately repeated call returns the identical result. -/
theorem list_tickets_by_status_spec (ts : List Ticket) (st : String)
    (s : AgentState) (q : String) :
    List.Sublist (list_tickets_by_status ts st) ts ∧
    (∀ t, t ∈ list_tickets_by_status ts st ↔ t ∈ ts ∧ pyLower t.status = pyLower st) ∧
    (statusGuard (normalizeQuery q) = true →
       (process_query s q).2 = s ∧
       process_query (process_query s q).2 q = process_query s q) := by
  refine ⟨List.filter_sublist _, ?_, ?_⟩
  · intro t
    simp [list_tickets_by_status, List.mem_filter]
  · intro h
    have h1 := process_query_status s q h
    rw [h1]
    exact ⟨rfl, h1⟩

/-- Witness for C3 at a concrete collection, status, and query. -/
theorem list_tickets_by_status_spec_w :
    sampleTicket ∈ list_tickets_by_status [sampleTicket] "OPEN" ∧
    (process_query sampleState "show open tickets").2 = sampleState :=
  ⟨((list_tickets_by_status_spec [sampleTicket] "OPEN" sampleState
      "show open tickets").2.1 sampleTicket).mpr ⟨by simp, by decide⟩,
   ((list_tickets_by_status_spec [sampleTicket] "OPEN" sampleState
      "show open tickets").2.2 (by decide)).1⟩

/-- C5: a successful reassignment updates exactly the first matching
ticket, changing only its `assigned_to` field, leaves every other ticket
unchanged, and rewrites the backing store so that reloading it reproduces
the in-memory collection (round-trip law). -/
theorem update_ticket_assignment_frame (s : AgentState) (tid : Int) (name : String)
    (pre post : List Ticket) (t : Ticket)
    (hsplit : s.tickets = pre ++ t :: post)
    (hpre : ∀ u ∈ pre, u.ticket_id ≠ tid)
    (ht : t.ticket_id = tid) :
    (update_ticket_assignment s tid name).1 = some { t with assigned_to := name } ∧
    (update_ticket_assignment s tid name).2.tickets =
      pre ++ { t with assigned_to := name } :: post ∧
    load_store (update_ticket_assignment s tid name).2 =
      (update_ticket_assignment s tid name).2.tickets := by
  have hu : updateFirst s.tickets tid name =
      (some { t with assigned_to := name },
       pre ++ { t with assigned_to := name } :: post) := by
    rw [hsplit]
    exact updateFirst_found pre t post tid name hpre ht
  simp [update_ticket_assignment, hu, load_store]

/-- Witness for C5 at a concrete state. -/
theorem update_ticket_assignment_frame_w :
    (update_ticket_assignment sampleState 1 "Bob").1 =
      some { sampleTicket with assigned_to := "Bob" } ∧
    (update_ticket_assignment sampleState 1 "Bob").2.tickets =
      [{ sampleTicket with assigned_to := "Bob" }] ∧
    load_store (update_ticket_assignment sampleState 1 "Bob").2 =
      (update_ticket_assignment sampleState 1 "Bob").2.tickets := by
  have h := update_ticket_assignment_frame sampleState 1 "Bob" [] [] sampleTicket
    rfl (by simp) (by decide)
  simpa using h

/-- C6: when no ticket has the requested id, `update_ticket_assignment`
returns `none` and neither the in-memory collection nor the backing store
is modified. -/
theorem update_ticket_assignment_not_found (s : AgentState) (tid : Int) (name : String)
    (h : ∀ t ∈ s.tickets, t.ticket_id ≠ tid) :
    (update_ticket_assignment s tid name).1 = none ∧
    (update_ticket_assignment s tid name).2 = s := by
  have hu := updateFirst_not_found s.tickets tid name h
  simp [update_ticket_assignment, hu]

/-- Witness for C6 at a concrete state and an absent id. -/
theorem update_ticket_assignment_not_found_w :
    (update_ticket_assignment sampleState 99 "Bob").1 = none ∧
    (update_ticket_assignment sampleState 99 "Bob").2 = sampleState :=
  update_ticket_assignment_not_found sampleState 99 "Bob" (by decide)

/-! ### Lemmas about the status-keyword scan -/

theorem matchKeywordAt_isSome_of_pre (pat l : List Char)
    (hp : pat = "open".toList ∨ pat = "closed".toList ∨ pat = "pending".toList)
    (hpre : pat.isPrefixOf l = true) :
    (matchKeywordAt l).isSome = true := by
  unfold matchKeywordAt
  split
  · rfl
  · split
    · rfl
    · split
      · rfl
      · rename_i hno hnc hnp
        rcases hp with rfl | rfl | rfl
        · exact absurd hpre hno
        · exact absurd hpre hnc
        · exact absurd hpre hnp

theorem matchKeywordAt_some_spec (l : List Char) (kw : String)
    (h : matchKeywordAt l = some kw) :
    (kw = "open" ∨ kw = "closed" ∨ kw = "pending") ∧
      kw.toList.isPrefixOf l = true := by
  unfold matchKeywordAt at h
  by_cases h1 : "open".toList.isPrefixOf l
  · rw [if_pos h1] at h
    obtain rfl : "open" = kw := Option.some.inj h
    exact ⟨Or.inl rfl, h1⟩
  · rw [if_neg h1] at h
    by_cases h2 : "closed".toList.isPrefixOf l
    · rw [if_pos h2] at h
      obtain rfl : "closed" = kw := Option.some.inj h
      exact ⟨Or.inr (Or.inl rfl), h2⟩
    · rw [if_neg h2] at h
      by_cases h3 : "pending".toList.isPrefixOf l
      · rw [if_pos h3] at h
        obtain rfl : "pending" = kw := Option.some.inj h
        exact ⟨Or.inr (Or.inr rfl), h3⟩
      · rw [if_neg h3] at h
        exact absurd h (by simp)

theorem scan_isSome_of_contained (pat : List Char)
    (hp : pat = "open".toList ∨ pat = "closed".toList ∨ pat = "pending".toList) :
    ∀ l : List Char, containsSub l pat = true →
      (searchPos matchKeywordAt l).isSome = true := by
  intro l
  induction l with
  | nil =>
    intro h
    exfalso
    rcases hp with rfl | rfl | rfl <;> simp [containsSub] at h
  | cons c t ih =>
    intro h
    rw [containsSub, Bool.or_eq_true] at h
    rcases h with hpre | hrec
    · have hm := matchKeywordAt_isSome_of_pre pat (c :: t) hp hpre
      rw [searchPos]
      cases hf : matchKeywordAt (c :: t)
      · rw [hf] at hm
        exact absurd hm (by simp)
      · simp [hf]
    · have hs := ih hrec
      rw [searchPos]
      cases hf : matchKeywordAt (c :: t)
      · simpa using hs
      · simp [hf]

theorem contained_of_pre (pat : List Char) :
    ∀ l : List Char, pat.isPrefixOf l = true → containsSub l pat = true := by
  intro l
  cases l with
  | nil =>
    intro h
    cases pat with
    | nil => rfl
    | cons p ps => simp [List.isPrefixOf] at h
  | cons c t =>
    intro h
    rw [containsSub, Bool.or_eq_true]
    exact Or.inl h

theorem scan_some_spec :
    ∀ (l : List Char) (kw : String), searchPos matchKeywordAt l = some kw →
      (kw = "open" ∨ kw = "closed" ∨ kw = "pending") ∧
        containsSub l kw.toList = true := by
  intro l
  induction l with
  | nil =>
    intro kw h
    simp [searchPos] at h
  | cons c t ih =>
    intro kw h
    rw [searchPos] at h
    cases hf : matchKeywordAt (c :: t) with
    | some k =>
      rw [hf] at h
      obtain rfl : kw = k := (Option.some.inj h).symm
      obtain ⟨hmem, hpre⟩ := matchKeywordAt_some_spec (c :: t) kw hf
      exact ⟨hmem, contained_of_pre kw.toList (c :: t) hpre⟩
    | none =>
      rw [hf] at h
      obtain ⟨hmem, hc⟩ := ih kw h
      refine ⟨hmem, ?_⟩
      rw [containsSub, Bool.or_eq_true]
      exact Or.inr hc

theorem scanStatus_isSome_of_guard (q : String) (h : statusGuard q = true) :
    (scanStatus q).isSome = true := by
  rw [statusGuard] at h
  simp only [Bool.and_eq_true, Bool.or_eq_true] at h
  obtain ⟨-, hd⟩ := h
  rcases hd with (hd | hd) | hd
  · exact scan_isSome_of_contained _ (Or.inl rfl) q.toList hd
  · exact scan_isSome_of_contained _ (Or.inr (Or.inl rfl)) q.toList hd
  · exact scan_isSome_of_contained _ (Or.inr (Or.inr rfl)) q.toList hd

/-- C9: whenever the containment guard of the status-listing rule holds,
the keyword re-extraction by pattern search succeeds, so the defensive
"Please specify a valid ticket status" sub-branch is unreachable: the
query is always answered by the keyword-found response. -/
theorem status_defensive_branch_unreachable (s : AgentState) (q : String)
    (h : statusGuard (normalizeQuery q) = true) :
    ∃ kw, scanStatus (normalizeQuery q) = some kw ∧
      process_query s q = (statusFound s.tickets kw, s) := by
  have hsome := scanStatus_isSome_of_guard (normalizeQuery q) h
  obtain ⟨kw, hkw⟩ := Option.isSome_iff_exists.mp hsome
  refine ⟨kw, hkw, ?_⟩
  rw [process_query_status s q h, hkw]
  rfl

/-- Witness for C9 at a concrete query passing the containment guard. -/
theorem status_defensive_branch_unreachable_w :
    ∃ kw, scanStatus (normalizeQuery "any open tickets?") = some kw ∧
      process_query sampleState "any open tickets?" =
        (statusFound sampleState.tickets kw, sampleState) :=
  status_defensive_branch_unreachable sampleState "any open tickets?" (by decide)

/-- C10: the status-listing trigger is substring containment, not word
matching: whenever the normalised query contains "tickets" and one of the
keywords as a substring, the query is classified as a status listing with
an extracted keyword that occurs as a substring; in particular the query
"Show reopened tickets", where "open" occurs only inside the word
"reopened", is classified as a status listing for "open" and lists the
open tickets. -/
theorem status_substring_containment :
    (∀ q : String,
       containsSub (normalizeQuery q).toList "tickets".toList = true →
       (containsSub (normalizeQuery q).toList "open".toList ||
        containsSub (normalizeQuery q).toList "closed".toList ||
        containsSub (normalizeQuery q).toList "pending".toList) = true →
       ∃ kw, classify (normalizeQuery q) = .statusListing (some kw) ∧
         (kw = "open" ∨ kw = "closed" ∨ kw = "pending") ∧
         containsSub (normalizeQuery q).toList kw.toList = true) ∧
    classify (normalizeQuery "Show reopened tickets") = .statusListing (some "open") ∧
    (process_query sampleState "Show reopened tickets").1 =
      "Tickets 1: Login bug (Assigned to Alice)" := by
  refine ⟨?_, rfl, rfl⟩
  intro q h1 h2
  have hg : statusGuard (normalizeQuery q) = true := by
    rw [statusGuard, h1, h2]
    rfl
  have hsome := scanStatus_isSome_of_guard _ hg
  obtain ⟨kw, hkw⟩ := Option.isSome_iff_exists.mp hsome
  have hspec := scan_some_spec (normalizeQuery q).toList kw hkw
  refine ⟨kw, ?_, hspec.1, hspec.2⟩
  rw [classify, if_pos hg, hkw]

/-- Witness for C10 at a concrete query. -/
theorem status_substring_containment_w :
    ∃ kw, classify (normalizeQuery "pending tickets") = .statusListing (some kw) ∧
      (kw = "open" ∨ kw = "closed" ∨ kw = "pending") ∧
      containsSub (normalizeQuery "pending tickets").toList kw.toList = true :=
  status_substring_containment.1 "pending tickets" (by rfl) (by rfl)

/-- C1: the classification is total and single-valued: every query maps
to exactly one of the five intents, and `process_query` answers with
exactly that intent's handler (so no input escapes the dispatch or is
handled by two rules at once). -/
theorem process_query_total_classification (s : AgentState) (query : String) :
    process_query s query = runCategory s (classify (normalizeQuery query)) ∧
    ∃! c : QCategory, classify (normalizeQuery query) = c := by
  constructor
  · by_cases hg : statusGuard (normalizeQuery query) = true
    · rw [process_query_status s query hg, classify, if_pos hg]
      rfl
    · rw [classify, if_neg hg]
      simp only [process_query]
      rw [if_neg hg]
      cases hA : searchPos matchAssignAt (normalizeQuery query).toList with
      | some p =>
        obtain ⟨tid, raw⟩ := p
        simp only [hA]
        rfl
      | none =>
        simp only [hA]
        cases hW : searchPos matchWhoAt (normalizeQuery query).toList with
        | some tid =>
          simp only [hW]
          rfl
        | none =>
          simp only [hW]
          cases hS : searchPos matchSummaryAt (normalizeQuery query).toList with
          | some tid =>
            simp only [hS]
            rfl
          | none =>
            simp only [hS]
            rfl
  · exact ⟨classify (normalizeQuery query), rfl, fun y hy => hy.symm⟩

/-- Witness for C1 at a concrete query and state. -/
theorem process_query_total_classification_w :
    process_query sampleState "hello" =
      runCategory sampleState (classify (normalizeQuery "hello")) :=
  (process_query_total_classification sampleState "hello").1

/-- Helper: inversion of `classify` on the reassignment intent. -/
theorem classify_reassignment_inv {q : String} {tid : Nat} {name : String}
    (h : classify q = .reassignment tid name) :
    statusGuard q = false ∧
      ∃ raw, searchPos matchAssignAt q.toList = some (tid, raw) ∧
        name = strCapitalize raw := by
  by_cases hg : statusGuard q = true
  · rw [classify, if_pos hg] at h
    exact absurd h (by simp)
  · have hg' : statusGuard q = false := by
      cases hb : statusGuard q
      · rfl
      · exact absurd hb hg
    rw [classify, if_neg hg] at h
    refine ⟨hg', ?_⟩
    cases hA : searchPos matchAssignAt q.toList with
    | some p =>
      obtain ⟨tid', raw⟩ := p
      simp only [hA] at h
      injection h with h1 h2
      refine ⟨raw, ?_, h2.symm⟩
      rw [← h1]
    | none =>
      simp only [hA] at h
      cases hW : searchPos matchWhoAt q.toList with
      | some tid2 =>
        simp only [hW] at h
        exact absurd h (by simp)
      | none =>
        simp only [hW] at h
        cases hS : searchPos matchSummaryAt q.toList with
        | some tid3 =>
          simp only [hS] at h
          exact absurd h (by simp)
        | none =>
          simp only [hS] at h
          exact absurd h (by simp)

/-- C4: a reassignment query whose ticket exists and is already assigned
to the captured name (case-insensitively) gets the "already assigned"
message and performs no write: the returned state is the input state, so
neither the in-memory collection nor the backing store changes. -/
theorem already_assigned_no_write (s : AgentState) (q : String) (tid : Nat)
    (name : String) (t : Ticket)
    (hc : classify (normalizeQuery q) = .reassignment tid name)
    (ht : get_ticket_by_id s.tickets (Int.ofNat tid) = some t)
    (ha : pyLower t.assigned_to = pyLower name) :
    process_query s q =
      ("Ticket " ++ toString tid ++ " is already assigned to " ++ name ++ ".", s) := by
  obtain ⟨hg, raw, hA, hname⟩ := classify_reassignment_inv hc
  have hgneg : ¬ statusGuard (normalizeQuery q) = true := by
    rw [hg]
    simp
  subst hname
  simp only [process_query]
  rw [if_neg hgneg]
  simp only [hA, ht]
  rw [if_pos (beq_iff_eq.mpr ha)]

/-- Witness for C4 at a concrete state and query. -/
theorem already_assigned_no_write_w :
    process_query sampleState "assign 1 to alice" =
      ("Ticket " ++ toString (1 : Nat) ++ " is already assigned to " ++
        "Alice" ++ ".", sampleState) :=
  already_assigned_no_write sampleState "assign 1 to alice" 1 "Alice" sampleTicket
    (by rfl) (by rfl) (by rfl)

/-- C7 counterexample: the loop checks `query.lower()` against the
sentinels without stripping, so the padded line " exit " — whose trimmed
lower-casing is exactly "exit" — does not terminate the loop; it is
routed to the query router and the loop continues. -/
theorem main_step_untrimmed_sentinel_cex :
    pyStrip (pyLower " exit ") = "exit" ∧
    main_step sampleState " exit " = .continued fallbackMsg sampleState :=
  ⟨rfl, rfl⟩

/-- C7 (amended): the loop terminates with the farewell message exactly
on lines whose lower-casing equals "exit" or "quit" — case-insensitive
but with no trimming of surrounding whitespace — and every other line is
passed to the query router and the loop continues. -/
theorem main_step_sentinel (s : AgentState) (query : String) :
    (main_step s query = .terminated farewellMsg ↔
       (pyLower query = "exit" ∨ pyLower query = "quit")) ∧
    (pyLower query ≠ "exit" → pyLower query ≠ "quit" →
       main_step s query =
         .continued (process_query s query).1 (process_query s query).2) := by
  unfold main_step
  by_cases h1 : pyLower query = "exit"
  · simp [h1]
  · by_cases h2 : pyLower query = "quit"
    · simp [h1, h2]
    · simp [h1, h2]

/-- Witness for C7's amended theorem: an upper-cased sentinel works. -/
theorem main_step_sentinel_w :
    main_step sampleState "QUIT" = .terminated farewellMsg :=
  (main_step_sentinel sampleState "QUIT").1.mpr (Or.inr rfl)

/-- C8 counterexample: one input satisfies both the status-listing
containment trigger and the reassignment pattern trigger at once, so the
dispatch rules are not mutually exclusive and the fixed order does mask
the reassignment rule here. -/
theorem dispatch_triggers_overlap_cex :
    statusTrigger "assign ticket 1 to bob open tickets" = true ∧
    assignTrigger "assign ticket 1 to bob open tickets" = true :=
  ⟨rfl, rfl⟩

/-- C8 (amended): the five rules are evaluated in a fixed priority order
and the first rule whose trigger holds handles the query: rule 1 wins
whenever its trigger holds (whether or not later triggers also hold), and
rule 2 wins exactly when rule 1's trigger fails and its own holds. -/
theorem dispatch_order_first_match_wins (s : AgentState) (q : String) :
    (statusTrigger q = true →
       process_query s q =
         (statusResponse s.tickets (scanStatus (normalizeQuery q)), s)) ∧
    (statusTrigger q = false → assignTrigger q = true →
       ∃ tid raw,
         searchPos matchAssignAt (normalizeQuery q).toList = some (tid, raw) ∧
           process_query s q = assignRun s tid (strCapitalize raw)) := by
  constructor
  · intro h
    exact process_query_status s q h
  · intro hg hA
    rw [assignTrigger] at hA
    obtain ⟨⟨tid, raw⟩, hAe⟩ := Option.isSome_iff_exists.mp hA
    refine ⟨tid, raw, hAe, ?_⟩
    have hgneg : ¬ statusGuard (normalizeQuery q) = true := by
      rw [statusTrigger] at hg
      rw [hg]
      simp
    simp only [process_query]
    rw [if_neg hgneg]
    simp only [hAe]
    rfl

/-- Witness for C8's amended theorem at the overlapping input: rule 1
handles it although the reassignment pattern also matches. -/
theorem dispatch_order_first_match_wins_w :
    process_query sampleState "assign ticket 1 to bob open tickets" =
      (statusResponse sampleState.tickets
        (scanStatus (normalizeQuery "assign ticket 1 to bob open tickets")),
       sampleState) :=
  (dispatch_order_first_match_wins sampleState
    "assign ticket 1 to bob open tickets").1 rfl
